import Mathlib

/-!
Verification of the upload lifecycle state machine of the fyleYoutubeAPI
service.  The definitions below are a shallow embedding of the TypeScript
sources:

* `src/services/upload-processor.service.ts` (`UploadProcessorService`)
* `src/services/supabase.service.ts`        (`SupabaseService`)
* `src/services/oauth.service.ts`           (`OAuthService`)
* `src/services/youtube.service.ts`         (`YouTubeService`)
* `src/services/video-processing.service.ts` (`VideoProcessingService`)

Conventions used throughout:

* JavaScript strings are modelled as `String` (ids, URLs, messages) or as
  `List Char` (metadata subject to character-count truncation, so that
  `substring`/`slice` become `List.take`).
* Timestamps (ISO-8601 strings / `Date.getTime()` values) are modelled as
  `Nat` milliseconds since the epoch; the lexicographic order on the ISO
  strings used by the database agrees with the numeric order.
* Nullable database columns are `Option` values; JavaScript truthiness of a
  nullable string (`if (x)`) is `truthyS`, which is false for both `null`
  and the empty string.
* `async` collaborator calls are modelled by an environment record that
  fixes the outcome every external call would produce; exceptions become
  `Except String` values carrying the `Error.message` string.
-/

/-- Status column of a `youtube_uploads` row; the lifecycle enum
{pending, processing, uploaded, failed} of the spec. -/
inductive UploadStatus
  | pending
  | processing
  | uploaded
  | failed
deriving DecidableEq

/-- Visibility enum {public, unlisted, private} (`privacy_status` /
`privacyStatus`).  `priv` stands for the source's `'private'`, `pub` for
`'public'`. -/
inductive Privacy
  | pub
  | unlisted
  | priv
deriving DecidableEq

/-- Character sequences standing for JavaScript strings wherever the code
truncates by character count. -/
abbrev Str := List Char

/-- JavaScript truthiness of a nullable string: `null`/`undefined` and the
empty string are falsy. -/
def truthyS : Option String → Bool
  | none => false
  | some s => s ≠ ""

/-- Row of the `youtube_uploads` table, with the columns read by the
upload pipeline (`upload-processor.service.ts`). -/
structure UploadRecord where
  id : String
  user_id : String
  file_id : String
  title : Str
  description : Option Str
  tags : Option (List Str)
  thumbnail_url : Option String
  scheduled_at : Option Nat
  privacy_status : Privacy
  status : UploadStatus
  youtube_video_id : Option String
  error_message : Option String
  created_at : Nat
  updated_at : Nat
deriving DecidableEq

/-- Partial update passed to `SupabaseService.updateYouTubeUpload`
(supabase.service.ts lines 323-360): only the fields present in the
`updates` object are written. -/
structure RecUpdate where
  status : Option UploadStatus
  youtube_video_id : Option String
  error_message : Option String
deriving DecidableEq

/-- Application of one `updateYouTubeUpload` call to a row: the listed
fields are overwritten and `updated_at` is set to the current time
(supabase.service.ts lines 340-345). -/
def applyUpdate (r : UploadRecord) (u : RecUpdate) (now : Nat) : UploadRecord :=
  { r with
    status := u.status.getD r.status
    youtube_video_id := match u.youtube_video_id with
      | some v => some v
      | none => r.youtube_video_id
    error_message := match u.error_message with
      | some m => some m
      | none => r.error_message
    updated_at := now }

/-- Database as the list of `youtube_uploads` rows.  `updateYouTubeUpload`
updates every row matching the id (`.eq('id', uploadId)`). -/
def dbUpdate (db : List UploadRecord) (uploadId : String) (u : RecUpdate)
    (now : Nat) : List UploadRecord :=
  db.map fun r => if r.id = uploadId then applyUpdate r u now else r

/-- Embeds `SupabaseService.getYouTubeUpload` (supabase.service.ts lines
464-487): select the row with the given id, `null` when absent. -/
def getYouTubeUpload (db : List UploadRecord) (uploadId : String) :
    Option UploadRecord :=
  db.find? fun r => r.id = uploadId

/-! ## OAuth service (`oauth.service.ts`) -/

/-- Columns of the `profiles` row read by `OAuthService.getUserTokens`
(oauth.service.ts lines 26-30). -/
structure ProfileRow where
  youtube_access_token : Option String
  youtube_refresh_token : Option String
  youtube_token_expires_at : Option Nat
deriving DecidableEq

/-- Token record returned by `OAuthService.getUserTokens`
(oauth.service.ts lines 4-8). -/
structure OAuthTokens where
  access_token : String
  refresh_token : Option String
  expires_at : Option Nat
deriving DecidableEq

/-- Embeds `OAuthService.getUserTokens` (oauth.service.ts lines 14-77).
The argument is the queried `profiles` row (`none` when the query errored
or returned no row, both of which the source maps to `null`).  A row whose
`youtube_access_token` is null or empty yields `null`; otherwise the
tokens are assembled with `refresh_token: data.youtube_refresh_token ||
undefined` and `expires_at` taken from the row when present. -/
def getUserTokens (row : Option ProfileRow) : Option OAuthTokens :=
  match row with
  | none => none
  | some d =>
    if truthyS d.youtube_access_token then
      some
        { access_token := d.youtube_access_token.getD ""
          refresh_token :=
            if truthyS d.youtube_refresh_token then d.youtube_refresh_token
            else none
          expires_at := d.youtube_token_expires_at }
    else none

/-- Embeds `OAuthService.hasValidTokens` (oauth.service.ts lines 131-156):
`false` when `getUserTokens` is `null`; `false` when `tokens.expires_at &&
tokens.expires_at < Date.now()` (note `expires_at = 0` is falsy in the
source, hence the `e ≠ 0` conjunct); `true` otherwise.  The stored refresh
token is never consulted. -/
def hasValidTokens (row : Option ProfileRow) (now : Nat) : Bool :=
  match getUserTokens row with
  | none => false
  | some t =>
    match t.expires_at with
    | some e => if e ≠ 0 ∧ e < now then false else true
    | none => true

/-! ## Audio source resolution (upload-processor.service.ts lines 55-190) -/

/-- Columns of the `files` row selected by the processor
(`select('cdn_url, s3_key, user_id')`, upload-processor.service.ts line
73). -/
structure FileRow where
  cdn_url : Option String
  s3_key : Option String
  user_id : String
deriving DecidableEq

/-- Embeds the audio-URL determination block of
`UploadProcessorService.processUpload` (upload-processor.service.ts lines
125-190), translated branch for branch:

* `audioUrl` is first set from `fileData.cdn_url` when that is truthy;
* `if (!audioUrl && fileData.s3_key) { ...signed URL... } else { throw
  new Error('File has no CDN URL or S3 key') }` — note that the `else`
  arm is also taken when `audioUrl` was already set from the CDN URL;
* inside the signed-URL branch, a missing `STORAGE_API_URL` throws, an
  axios failure or a response without `downloadUrl` is caught and
  re-thrown as `Failed to generate signed URL: ...`;
* the trailing `if (!audioUrl)` check of line 188.

`signedUrl` is the outcome of the storage-API call: `.error m` when axios
rejected with message `m`, `.ok d` when it responded with
`data?.data?.downloadUrl = d`. -/
def resolveAudioUrl (fileData : FileRow) (storageApiUrl : Option String)
    (signedUrl : Except String (Option String)) : Except String String :=
  let audioUrl : Option String :=
    if truthyS fileData.cdn_url then fileData.cdn_url else none
  if audioUrl = none ∧ truthyS fileData.s3_key then
    if ¬ truthyS storageApiUrl then
      .error "STORAGE_API_URL not configured. Cannot generate signed URL for S3 files."
    else
      match signedUrl with
      | .error m => .error ("Failed to generate signed URL: " ++ m)
      | .ok d =>
        if ¬ truthyS d then
          .error ("Failed to generate signed URL: " ++
            "Storage API did not return a download URL")
        else
          match d with
          | some u => .ok u
          | none => .error "Failed to determine audio URL. File has no accessible URL."
  else
    .error "File has no CDN URL or S3 key"

/-! ## YouTube publish client (`youtube.service.ts`) -/

/-- Metadata argument of `YouTubeService.uploadVideo`
(youtube.service.ts lines 6-14). -/
structure YouTubeUploadOptions where
  title : Str
  description : Option Str
  tags : Option (List Str)
  thumbnailUrl : Option String
  privacyStatus : Option Privacy
  categoryId : Option Str
  publishAt : Option Nat
deriving DecidableEq

/-- Snippet part of the `videos.insert` request body
(youtube.service.ts lines 99-104). -/
structure Snippet where
  title : Str
  description : Str
  tags : List Str
  categoryId : Str
deriving DecidableEq

/-- Status part of the `videos.insert` request body
(youtube.service.ts lines 83-94). -/
structure StatusBody where
  privacyStatus : Privacy
  selfDeclaredMadeForKids : Bool
  madeForKids : Bool
  publishAt : Option Nat
deriving DecidableEq

/-- Embeds the snippet construction of `YouTubeService.uploadVideo`
(youtube.service.ts lines 99-104): `title.substring(0, 100)`,
`description?.substring(0, 5000) || ''`, `tags?.slice(0, 500) || []`,
`categoryId || '10'`. -/
def buildSnippet (options : YouTubeUploadOptions) : Snippet :=
  { title := options.title.take 100
    description := (options.description.getD []).take 5000
    tags := (options.tags.getD []).take 500
    categoryId :=
      match options.categoryId with
      | some c => if c = [] then "10".toList else c
      | none => "10".toList }

/-- Embeds the status-body construction of `YouTubeService.uploadVideo`
(youtube.service.ts lines 83-94): default visibility
`options.privacyStatus || 'public'`; when `options.publishAt` is set,
`publishAt` is copied verbatim and the visibility is forced to
`'private'`. -/
def buildStatusBody (options : YouTubeUploadOptions) : StatusBody :=
  let base : StatusBody :=
    { privacyStatus := options.privacyStatus.getD .pub
      selfDeclaredMadeForKids := false
      madeForKids := false
      publishAt := none }
  match options.publishAt with
  | some p => { base with publishAt := some p, privacyStatus := .priv }
  | none => base

example :
    resolveAudioUrl ⟨some "https://cdn.example.com/a.mp3", some "k", "u1"⟩
      (some "https://storage") (.ok (some "https://signed")) =
      .error "File has no CDN URL or S3 key" := by rfl

example : hasValidTokens (some ⟨some "at", some "rt", some 1000⟩) 2000 = false := by
  decide

/-! ## Media composer (`video-processing.service.ts`) -/

/-- Behaviour of the external FFmpeg invocation launched by
`VideoProcessingService.createVideoFromAudio`: the process either emits
the `end` event (with the size `fs.stat` then reports), emits the `error`
event with some message, or keeps running and emits neither. -/
inductive MuxEvent
  | muxEnd (size : Nat)
  | muxError (msg : String)
  | silent
deriving DecidableEq

/-- Outcomes the external calls made by `createVideoFromAudio` would
produce: the thumbnail download (`downloadThumbnail`, 30 s axios timeout),
the audio download (`downloadAudio`, 5 min axios timeout), and the FFmpeg
run. -/
structure ComposeEnv where
  thumbDl : Except String String
  audioDl : Except String Unit
  mux : MuxEvent

/-- Fate of one `createVideoFromAudio()` promise as observed by an
awaiting caller: it throws/rejects with a message, fulfils with the output
path and size, or never settles at all. -/
inductive ComposeResult
  | failed (msg : String)
  | finished (videoPath : String) (size : Nat)
  | neverSettles
deriving DecidableEq

/-- Embeds `VideoProcessingService.createVideoFromAudio`
(video-processing.service.ts lines 30-135).  A thumbnail download failure
is logged and tolerated (`thumbnailPath` stays null); an audio download
failure is re-thrown as `Failed to download audio file: ...`; afterwards
the function returns `new Promise((resolve, reject) => ...)` whose only
settlement paths are the `end` handler (resolve with the stat size) and
the `error` handler (reject).  No timer, timeout option or kill call is
attached to the FFmpeg command, so a run that emits neither event leaves
the promise pending forever. -/
def createVideoFromAudio (env : ComposeEnv) (thumbnailUrl : Option String)
    (videoPath : String) : ComposeResult :=
  let _thumbnailPath : Option String :=
    match thumbnailUrl, env.thumbDl with
    | some _, .ok p => some p
    | some _, .error _ => none
    | none, _ => none
  match env.audioDl with
  | .error m => .failed ("Failed to download audio file: " ++ m)
  | .ok _ =>
    match env.mux with
    | .muxEnd size => .finished videoPath size
    | .muxError m => .failed m
    | .silent => .neverSettles

/-- Embeds the FFmpeg stage of the sibling revision of the composer kept
in the repository (src/unnamed/part_008, `createVideoFromAudio`): there a
30-minute `setTimeout` is armed in the `start` handler, `command.kill
('SIGKILL')` is issued when it fires, and the promise is rejected with a
distinct timeout error, so a silent FFmpeg run settles after 30 minutes
instead of hanging. -/
def createVideoFromAudioRailway (env : ComposeEnv) (thumbnailUrl : Option String)
    (videoPath : String) : ComposeResult :=
  let _thumbnailPath : Option String :=
    match thumbnailUrl, env.thumbDl with
    | some _, .ok p => some p
    | some _, .error _ => none
    | none, _ => none
  match env.audioDl with
  | .error m => .failed ("Failed to download audio file: " ++ m)
  | .ok _ =>
    match env.mux with
    | .muxEnd size => .finished videoPath size
    | .muxError m => .failed m
    | .silent => .failed "FFmpeg process timeout after 30 minutes"

/-! ## Upload pipeline (`upload-processor.service.ts`) -/

/-- Outcome of the `files` table query raced against the 30-second
timeout promise (upload-processor.service.ts lines 70-106): either the
race rejected (`raceFail`, covering both the timeout and a query
rejection), or it produced a supabase `{ data, error }` result. -/
inductive FileQueryRes
  | raceFail (msg : String)
  | res (error : Option String) (data : Option FileRow)
deriving DecidableEq

/-- Outcomes of every external call one `processUpload` invocation can
make, plus the wall-clock time; `tokens` is the `getUserTokens` result,
`initRes` the outcome of `youtubeService.initialize`, `compose` the
settled outcome of the composer, `publish` the outcome of
`youtubeService.uploadVideo` (already carrying that method's wrapped
error message). -/
structure PipelineEnv where
  now : Nat
  tokens : Option OAuthTokens
  initRes : Except String Unit
  clientOk : Bool
  fileQuery : FileQueryRes
  storageApiUrl : Option String
  signedUrl : Except String (Option String)
  compose : Except String (String × Nat)
  publish : Except String (String × String)

/-- Embeds the construction of the metadata object the processor passes
to `youtubeService.uploadVideo` (upload-processor.service.ts lines
221-227): title, `description || undefined`, `tags || undefined`,
`thumbnail_url || undefined`, and a hard-coded `privacyStatus:
'private'`; no `categoryId` and no `publishAt` key is ever supplied. -/
def publishOptions (upload : UploadRecord) : YouTubeUploadOptions :=
  { title := upload.title
    description := match upload.description with
      | some d => if d = [] then none else some d
      | none => none
    tags := upload.tags
    thumbnailUrl :=
      if truthyS upload.thumbnail_url then upload.thumbnail_url else none
    privacyStatus := some .priv
    categoryId := none
    publishAt := none }

/-- Result of the `try` block of `processUpload` (upload-processor.
service.ts lines 45-239): the value is the YouTube video id on success or
the thrown `Error.message`; `publishes` records the `uploadVideo` calls
made; `videoPath` is the composer output (cleaned up in the `finally`). -/
structure TryResult where
  result : Except String String
  publishes : List YouTubeUploadOptions
  videoPath : Option String

/-- Embeds the body of the `try` block of
`UploadProcessorService.processUpload` (upload-processor.service.ts lines
45-239), step for step: missing tokens throw the connect-account message
(line 49); `youtubeService.initialize` may throw (line 53); a null
supabase client throws (line 63); the raced file query (lines 71-121)
throws its wrapped messages; the audio URL is resolved by
`resolveAudioUrl`; a composer failure is re-thrown as `Video creation
failed: ...` (line 213); finally `uploadVideo` is called with
`publishOptions upload`. -/
def runTry (env : PipelineEnv) (upload : UploadRecord) : TryResult :=
  match env.tokens with
  | none =>
    ⟨.error "User has not connected YouTube account. Please connect your YouTube account first.",
      [], none⟩
  | some _ =>
    match env.initRes with
    | .error m => ⟨.error m, [], none⟩
    | .ok _ =>
      if ¬ env.clientOk then ⟨.error "Supabase client not initialized", [], none⟩
      else
        match env.fileQuery with
        | .raceFail m => ⟨.error ("Supabase query failed: " ++ m), [], none⟩
        | .res ferr fdata =>
          match ferr with
          | some m =>
            ⟨.error ("File not found in database: " ++
              (if m = "" then "Unknown error" else m)), [], none⟩
          | none =>
            match fdata with
            | none => ⟨.error "File not found in database: No data returned", [], none⟩
            | some fileData =>
              match resolveAudioUrl fileData env.storageApiUrl env.signedUrl with
              | .error m => ⟨.error m, [], none⟩
              | .ok _audioUrl =>
                match env.compose with
                | .error m => ⟨.error ("Video creation failed: " ++ m), [], none⟩
                | .ok (videoPath, _size) =>
                  match env.publish with
                  | .error m => ⟨.error m, [publishOptions upload], some videoPath⟩
                  | .ok (videoId, _url) =>
                    ⟨.ok videoId, [publishOptions upload], some videoPath⟩

/-- How one `processUpload` call returned to its caller. -/
inductive Outcome
  | okDone
  | noop
  | thrown (msg : String)
deriving DecidableEq

/-- Observable effects of one `processUpload` call: the database
afterwards, the statuses written to the record in order, the `uploadVideo`
calls made, the way the call returned, and the local files cleaned up. -/
structure ProcessResult where
  db : List UploadRecord
  statusWrites : List UploadStatus
  publishes : List YouTubeUploadOptions
  outcome : Outcome
  cleanups : List String
deriving DecidableEq

/-- Embeds `UploadProcessorService.processUpload`
(upload-processor.service.ts lines 25-251):

1. load the record, throwing `Upload not found` when absent (line 31);
2. return immediately when the status read is `uploaded` or `processing`
   (lines 35-38) — a read-then-test guard, not a conditional write;
3. unconditionally write `status: 'processing'` (lines 41-43);
4. run the `try` block; on success write `status: 'uploaded'` with the
   video id (lines 230-233); on any thrown error write `status: 'failed'`
   with `error.message || 'Unknown error occurred'` (lines 244-247) and
   re-throw (line 249);
5. the `finally` of the upload step cleans the composed file (line 238). -/
def processUpload (env : PipelineEnv) (db : List UploadRecord)
    (uploadId : String) : ProcessResult :=
  match getYouTubeUpload db uploadId with
  | none => ⟨db, [], [], .thrown "Upload not found", []⟩
  | some upload =>
    if upload.status = .uploaded ∨ upload.status = .processing then
      ⟨db, [], [], .noop, []⟩
    else
      let db1 := dbUpdate db uploadId ⟨some .processing, none, none⟩ env.now
      let t := runTry env upload
      match t.result with
      | .ok videoId =>
        let db2 := dbUpdate db1 uploadId ⟨some .uploaded, some videoId, none⟩ env.now
        ⟨db2, [.processing, .uploaded], t.publishes, .okDone, t.videoPath.toList⟩
      | .error m =>
        let db2 := dbUpdate db1 uploadId
          ⟨some .failed, none, some (if m = "" then "Unknown error occurred" else m)⟩
          env.now
        ⟨db2, [.processing, .failed], t.publishes, .thrown m, t.videoPath.toList⟩

/-! ## Sweep query (`supabase.service.ts` lines 366-433) -/

/-- Stable insertion of one element into a list sorted by the boolean
relation `le`; used to realise the database's `ORDER BY`. -/
def insertLe {α : Type} (le : α → α → Bool) (a : α) : List α → List α
  | [] => [a]
  | b :: l => if le b a then b :: insertLe le a l else a :: b :: l

/-- Stable sort by the boolean relation `le`, realising the database's
`ORDER BY ... ascending` clauses of `getPendingUploads`. -/
def orderBy {α : Type} (le : α → α → Bool) : List α → List α
  | [] => []
  | a :: l => insertLe le a (orderBy le l)

/-- Insertion into the association list behind `new Map(...)`: an
existing key keeps its position and gets the new value, a new key is
appended. -/
def mapInsert (m : List (String × UploadRecord)) (k : String)
    (v : UploadRecord) : List (String × UploadRecord) :=
  match m with
  | [] => [(k, v)]
  | (k₁, v₁) :: rest =>
    if k₁ = k then (k₁, v) :: rest else (k₁, v₁) :: mapInsert rest k v

/-- Embeds `Array.from(new Map(all.map(u => [u.id, u])).values())`
(supabase.service.ts line 424): deduplication by id keeping
first-occurrence order and the last value seen for each id. -/
def dedupById (l : List UploadRecord) : List UploadRecord :=
  (l.foldl (fun m u => mapInsert m u.id u) []).map (·.2)

/-- Staleness window of the sweep: 10 minutes in milliseconds
(supabase.service.ts line 375). -/
def tenMinutesMs : Nat := 10 * 60 * 1000

/-- Embeds `SupabaseService.getPendingUploads` (supabase.service.ts lines
366-433): all rows with `status = 'pending'` ordered by `created_at`
ascending and capped at 20 — no `scheduled_at` condition is applied — plus
all rows with `status = 'processing'` and `updated_at <` ten minutes ago
ordered by `updated_at` ascending and capped at 5; the concatenation is
deduplicated by id and capped at 10. -/
def getPendingUploads (db : List UploadRecord) (now : Nat) :
    List UploadRecord :=
  let tenMinutesAgo := now - tenMinutesMs
  let pendingData :=
    (orderBy (fun r s => r.created_at ≤ s.created_at)
      (db.filter fun r => r.status = .pending)).take 20
  let stuckData :=
    (orderBy (fun r s => r.updated_at ≤ s.updated_at)
      (db.filter fun r => r.status = .processing ∧ r.updated_at < tenMinutesAgo)).take 5
  let all := pendingData ++ stuckData
  (dedupById all).take 10

/-- Embeds `UploadProcessorService.processPendingUploads`
(upload-processor.service.ts lines 257-273): fetch the batch, then invoke
`processUpload` on each id sequentially, catching and swallowing each
item's error so the loop continues; returns the database afterwards and
the total number of `uploadVideo` calls made. -/
def processPendingUploads (env : PipelineEnv) (db : List UploadRecord) :
    List UploadRecord × Nat :=
  (getPendingUploads db env.now).foldl
    (fun acc u =>
      let r := processUpload env acc.1 u.id
      (r.db, acc.2 + r.publishes.length))
    (db, 0)

/-- Repeated sweep passes: the database after `n` invocations of
`processPendingUploads` (the ~30 s `setInterval` loop of the service). -/
def sweepIter (env : PipelineEnv) : Nat → List UploadRecord → List UploadRecord
  | 0, db => db
  | n + 1, db => sweepIter env n (processPendingUploads env db).1

/-! ## Two concurrent `processUpload` invocations

The immediate-attempt path and the sweep path can run `processUpload` on
the same id concurrently.  The machine below embeds the prefix of
`processUpload` that touches the shared record, cut at its `await`
boundaries (the only points where control can interleave in the
single-threaded event loop):

* `atRead`    — about to resume from `await getYouTubeUpload` (line 29)
  and run the status guard (line 35); the guard test itself is
  synchronous, so read-plus-test is one atomic segment;
* `atClaim`   — past the guard, about to perform
  `await updateYouTubeUpload(uploadId, { status: 'processing' })`
  (line 41), an unconditional write;
* `atPublish` — inside the `try` block with every collaborator
  succeeding: performs the `uploadVideo` call and the final
  `status: 'uploaded'` write;
* `invDone`   — returned.
-/

/-- Continuation point of one in-flight `processUpload` invocation. -/
inductive InvPc
  | atRead
  | atClaim
  | atPublish
  | invDone
deriving DecidableEq

/-- Shared record status plus the two invocations' continuation points
and the number of `uploadVideo` calls performed so far. -/
structure ConcState where
  recStatus : UploadStatus
  pcA : InvPc
  pcB : InvPc
  pubCount : Nat
deriving DecidableEq

/-- One atomic segment of the invocation currently holding the event
loop, as read off `processUpload` (see the section comment). -/
def stepPc (st : UploadStatus) (pc : InvPc) (pubs : Nat) :
    UploadStatus × InvPc × Nat :=
  match pc with
  | .atRead =>
    if st = .uploaded ∨ st = .processing then (st, .invDone, pubs)
    else (st, .atClaim, pubs)
  | .atClaim => (.processing, .atPublish, pubs)
  | .atPublish => (.uploaded, .invDone, pubs + 1)
  | .invDone => (st, .invDone, pubs)

/-- Run one atomic segment of invocation A (`true`) or B (`false`). -/
def stepInv (s : ConcState) (isA : Bool) : ConcState :=
  if isA then
    let (st, pc, pubs) := stepPc s.recStatus s.pcA s.pubCount
    { s with recStatus := st, pcA := pc, pubCount := pubs }
  else
    let (st, pc, pubs) := stepPc s.recStatus s.pcB s.pubCount
    { s with recStatus := st, pcB := pc, pubCount := pubs }

/-- Execution of a schedule (the event loop's choice of which invocation
resumes at each suspension point). -/
def runSched (sched : List Bool) (s : ConcState) : ConcState :=
  sched.foldl stepInv s

/-- Initial state for two invocations racing on one `pending` record. -/
def concInit : ConcState := ⟨.pending, .atRead, .atRead, 0⟩

/-- Modelled from the spec: the atomic claim prescribed by §4.1 step 2 —
"atomically flipping `pending`→`processing` only if status is still
`pending`", a single conditional write replacing the read-then-test guard
and the unconditional update; an invocation whose claim fails aborts.
This mechanism is absent from `processUpload`, which is why it is built
here from the spec's words. -/
def stepPcAtomic (st : UploadStatus) (pc : InvPc) (pubs : Nat) :
    UploadStatus × InvPc × Nat :=
  match pc with
  | .atRead =>
    if st = .pending then (.processing, .atPublish, pubs)
    else (st, .invDone, pubs)
  | .atClaim => (st, .atPublish, pubs)
  | .atPublish => (.uploaded, .invDone, pubs + 1)
  | .invDone => (st, .invDone, pubs)

/-- One scheduled segment under the spec's atomic-claim discipline. -/
def stepInvAtomic (s : ConcState) (isA : Bool) : ConcState :=
  if isA then
    let (st, pc, pubs) := stepPcAtomic s.recStatus s.pcA s.pubCount
    { s with recStatus := st, pcA := pc, pubCount := pubs }
  else
    let (st, pc, pubs) := stepPcAtomic s.recStatus s.pcB s.pubCount
    { s with recStatus := st, pcB := pc, pubCount := pubs }

/-- Execution of a schedule under the atomic-claim discipline. -/
def runSchedAtomic (sched : List Bool) (s : ConcState) : ConcState :=
  sched.foldl stepInvAtomic s

/-! ## Helper lemmas -/

lemma mem_insertLe {α : Type} (le : α → α → Bool) (a b : α) (l : List α) :
    b ∈ insertLe le a l ↔ b = a ∨ b ∈ l := by
  induction l with
  | nil => simp [insertLe]
  | cons c l ih =>
    cases hca : le c a
    · simp [insertLe, hca, List.mem_cons]
    · simp [insertLe, hca, List.mem_cons, ih]
      tauto

lemma mem_orderBy {α : Type} (le : α → α → Bool) (a : α) (l : List α) :
    a ∈ orderBy le l ↔ a ∈ l := by
  induction l with
  | nil => simp [orderBy]
  | cons b l ih =>
    simp only [orderBy, mem_insertLe, List.mem_cons, ih]

lemma length_insertLe {α : Type} (le : α → α → Bool) (a : α) (l : List α) :
    (insertLe le a l).length = l.length + 1 := by
  induction l with
  | nil => simp [insertLe]
  | cons c l ih =>
    cases hca : le c a <;> simp [insertLe, hca, ih]

lemma length_orderBy {α : Type} (le : α → α → Bool) (l : List α) :
    (orderBy le l).length = l.length := by
  induction l with
  | nil => rfl
  | cons b l ih => simp [orderBy, length_insertLe, ih]

lemma perm_insertLe {α : Type} (le : α → α → Bool) (a : α) (l : List α) :
    (insertLe le a l).Perm (a :: l) := by
  induction l with
  | nil => simp [insertLe]
  | cons c l ih =>
    cases hca : le c a
    · simp [insertLe, hca]
    · simp only [insertLe, hca, if_pos]
      exact (List.Perm.cons c ih).trans (List.Perm.swap a c l)

lemma perm_orderBy {α : Type} (le : α → α → Bool) (l : List α) :
    (orderBy le l).Perm l := by
  induction l with
  | nil => simp [orderBy]
  | cons b l ih =>
    exact (perm_insertLe le b (orderBy le l)).trans (List.Perm.cons b ih)

lemma nodup_map_orderBy {α β : Type} (le : α → α → Bool) (f : α → β)
    (l : List α) (h : (l.map f).Nodup) : ((orderBy le l).map f).Nodup :=
  (List.Perm.map f (perm_orderBy le l)).nodup_iff.2 h

lemma mem_mapInsert (m : List (String × UploadRecord)) (k : String)
    (v : UploadRecord) (p : String × UploadRecord) :
    p ∈ mapInsert m k v → p ∈ m ∨ p = (k, v) := by
  induction m with
  | nil => simp [mapInsert]
  | cons q m ih =>
    rcases q with ⟨k₁, v₁⟩
    by_cases h : k₁ = k
    · subst h
      simp only [mapInsert, if_pos rfl]
      intro hp
      rcases List.mem_cons.1 hp with h1 | h1
      · right; exact h1
      · left; exact List.mem_cons_of_mem _ h1
    · simp only [mapInsert, if_neg h]
      intro hp
      rcases List.mem_cons.1 hp with h1 | h1
      · left; exact h1 ▸ List.mem_cons_self _ _
      · rcases ih h1 with h2 | h2
        · left; exact List.mem_cons_of_mem _ h2
        · right; exact h2

lemma mapInsert_of_not_mem (m : List (String × UploadRecord)) (k : String)
    (v : UploadRecord) (h : k ∉ m.map (·.1)) :
    mapInsert m k v = m ++ [(k, v)] := by
  induction m with
  | nil => rfl
  | cons q m ih =>
    rcases q with ⟨k₁, v₁⟩
    simp only [List.map_cons, List.mem_cons] at h
    push_neg at h
    have hne : ¬ k₁ = k := fun hh => h.1 hh.symm
    simp only [mapInsert, if_neg hne, List.cons_append]
    rw [ih h.2]

lemma foldl_mapInsert_values (l : List UploadRecord)
    (m : List (String × UploadRecord)) (r : UploadRecord)
    (h : r ∈ (l.foldl (fun m u => mapInsert m u.id u) m).map (·.2)) :
    r ∈ m.map (·.2) ∨ r ∈ l := by
  induction l generalizing m with
  | nil => simp_all
  | cons u l ih =>
    simp only [List.foldl_cons] at h
    rcases ih (mapInsert m u.id u) h with h1 | h1
    · simp only [List.mem_map] at h1
      rcases h1 with ⟨p, hp, hpr⟩
      rcases mem_mapInsert m u.id u p hp with h2 | h2
      · left
        exact List.mem_map.2 ⟨p, h2, hpr⟩
      · right
        rw [h2] at hpr
        rw [← hpr]
        exact List.mem_cons_self _ _
    · right; exact List.mem_cons_of_mem _ h1

/-- Values of `dedupById` come from the input list. -/
lemma mem_of_mem_dedupById (l : List UploadRecord) (r : UploadRecord)
    (h : r ∈ dedupById l) : r ∈ l := by
  rcases foldl_mapInsert_values l [] r h with h1 | h1
  · simp at h1
  · exact h1

lemma foldl_mapInsert_of_nodup (l : List UploadRecord)
    (m : List (String × UploadRecord))
    (hd : ∀ u ∈ l, u.id ∉ m.map (·.1))
    (hn : (l.map (·.id)).Nodup) :
    l.foldl (fun m u => mapInsert m u.id u) m = m ++ l.map fun u => (u.id, u) := by
  induction l generalizing m with
  | nil => simp
  | cons u l ih =>
    simp only [List.foldl_cons]
    rw [mapInsert_of_not_mem m u.id u (hd u (List.mem_cons_self _ _))]
    rw [List.map_cons] at hn
    have hn' := List.Nodup.of_cons hn
    have hu : u.id ∉ l.map (·.id) := (List.nodup_cons.1 hn).1
    rw [ih (m ++ [(u.id, u)]) ?_ hn']
    · simp
    · intro v hv
      simp only [List.map_append, List.mem_append, List.map_cons]
      push_neg
      refine ⟨hd v (List.mem_cons_of_mem _ hv), ?_⟩
      simp only [List.map_cons, List.map_nil, List.mem_singleton]
      intro hh
      exact hu (hh ▸ List.mem_map_of_mem (·.id) hv)

/-- Identification of `dedupById` on lists with pairwise distinct ids. -/
lemma dedupById_of_nodup (l : List UploadRecord)
    (hn : (l.map (·.id)).Nodup) : dedupById l = l := by
  unfold dedupById
  rw [foldl_mapInsert_of_nodup l [] (by simp) hn]
  simp only [List.nil_append, List.map_map]
  have hcomp : ((fun x : String × UploadRecord => x.2) ∘
      fun u : UploadRecord => (u.id, u)) = id := rfl
  rw [hcomp, List.map_id]

lemma applyUpdate_id (r : UploadRecord) (u : RecUpdate) (now : Nat) :
    (applyUpdate r u now).id = r.id := rfl

/-- Reading a record back after `updateYouTubeUpload`: the row found for
an id after `dbUpdate` is the previously found row with the update
applied. -/
lemma getYouTubeUpload_dbUpdate (db : List UploadRecord) (uploadId : String)
    (u : RecUpdate) (now : Nat) :
    getYouTubeUpload (dbUpdate db uploadId u now) uploadId =
      (getYouTubeUpload db uploadId).map (applyUpdate · u now) := by
  induction db with
  | nil => rfl
  | cons r l ih =>
    by_cases h : r.id = uploadId
    · unfold dbUpdate getYouTubeUpload
      simp only [List.map_cons, List.find?_cons, if_pos h]
      rw [show (decide ((applyUpdate r u now).id = uploadId)) = true from by
            simp [applyUpdate_id, h],
          show (decide (r.id = uploadId)) = true from by simp [h]]
      rfl
    · unfold dbUpdate getYouTubeUpload
      simp only [List.map_cons, List.find?_cons, if_neg h]
      rw [show (decide ((r : UploadRecord).id = uploadId)) = false from by simp [h]]
      exact ih

/-- Shape of the publish-call log of the `try` block: empty or exactly
one `uploadVideo` call with `publishOptions upload`. -/
lemma runTry_publishes (env : PipelineEnv) (upload : UploadRecord) :
    (runTry env upload).publishes = [] ∨
    (runTry env upload).publishes = [publishOptions upload] := by
  unfold runTry
  repeat' split
  all_goals simp

/-- Success of the `try` block implies the single publish call was
made. -/
lemma runTry_ok_publishes (env : PipelineEnv) (upload : UploadRecord)
    (videoId : String) (h : (runTry env upload).result = .ok videoId) :
    (runTry env upload).publishes = [publishOptions upload] := by
  unfold runTry at h ⊢
  repeat' split
  all_goals simp_all

/-! ## Concrete fixtures -/

/-- Fresh `pending` record as the intake collaborator creates it. -/
def recPending : UploadRecord :=
  { id := "u1", user_id := "user1", file_id := "f1"
    title := "Demo Track".toList, description := none, tags := none
    thumbnail_url := none, scheduled_at := none, privacy_status := .pub
    status := .pending, youtube_video_id := none, error_message := none
    created_at := 1000, updated_at := 1000 }

/-- Record stuck in `processing` since the epoch. -/
def recStuck : UploadRecord :=
  { id := "s1", user_id := "user1", file_id := "f1"
    title := "Stuck Track".toList, description := none, tags := none
    thumbnail_url := none, scheduled_at := none, privacy_status := .pub
    status := .processing, youtube_video_id := none, error_message := none
    created_at := 0, updated_at := 0 }

/-- Record in terminal `failed` state from an earlier attempt. -/
def recFailed : UploadRecord :=
  { id := "x1", user_id := "user1", file_id := "f1"
    title := "Failed Track".toList, description := none, tags := none
    thumbnail_url := none, scheduled_at := none, privacy_status := .pub
    status := .failed, youtube_video_id := none
    error_message := some "old failure", created_at := 0, updated_at := 0 }

/-- Pending record scheduled for a point in the future. -/
def recFuture : UploadRecord :=
  { id := "p1", user_id := "user1", file_id := "f1"
    title := "Future Track".toList, description := none, tags := none
    thumbnail_url := none, scheduled_at := some 9999999999
    privacy_status := .pub, status := .pending, youtube_video_id := none
    error_message := none, created_at := 5, updated_at := 5 }

/-- Sweep instant eleven minutes after the epoch, so `recStuck` is one
minute beyond the staleness window. -/
def tNow : Nat := 11 * 60 * 1000

/-- Environment in which every collaborator call succeeds.  Note that the
file row must carry no CDN URL: a truthy `cdn_url` makes the resolution
block throw (see `C3` below), so the only working path goes through the
signed URL. -/
def envOk : PipelineEnv :=
  { now := tNow
    tokens := some { access_token := "at", refresh_token := some "rt", expires_at := some 999999999 }
    initRes := .ok ()
    clientOk := true
    fileQuery := .res none (some { cdn_url := none, s3_key := some "audio/key.mp3", user_id := "user1" })
    storageApiUrl := some "https://storage.example"
    signedUrl := .ok (some "https://signed.example/a.mp3")
    compose := .ok ("/tmp/youtube-videos/v.mp4", 42)
    publish := .ok ("vid123", "https://www.youtube.com/watch?v=vid123") }

/-- Environment identical to `envOk` except that the composer throws. -/
def envComposeFail : PipelineEnv :=
  { envOk with compose := .error "boom" }

/-! ## Claim theorems -/

/-- C1: the claim states that the `pending`→`processing` transition is a
single atomic conditional write, so that of two concurrent `processUpload`
invocations on the same `pending` record exactly one reaches the publish
call.  The code instead uses a read-then-test guard (line 35) followed by
an unconditional status write (line 41); under the schedule in which both
invocations resume from their record read before either has written
`processing`, both pass the guard and both publish: the run below ends
with `pubCount = 2`. -/
theorem C1_concurrent_double_publish :
    runSched [true, false, true, true, false, false] concInit =
      { recStatus := .uploaded, pcA := .invDone, pcB := .invDone, pubCount := 2 } := by
  decide

/-- Helper invariant for the spec-modelled atomic-claim discipline: the
number of publishes plus the number of invocations past a successful
claim never exceeds one, and is zero while the record is `pending`. -/
def atomicInv (s : ConcState) : Prop :=
  s.pcA ≠ .atClaim ∧ s.pcB ≠ .atClaim ∧
  (s.recStatus = .pending →
    s.pubCount = 0 ∧ s.pcA ≠ .atPublish ∧ s.pcB ≠ .atPublish) ∧
  s.pubCount +
    ((if s.pcA = .atPublish then 1 else 0) +
     (if s.pcB = .atPublish then 1 else 0)) ≤ 1

lemma stepInvAtomic_preserves (s : ConcState) (isA : Bool)
    (h : atomicInv s) : atomicInv (stepInvAtomic s isA) := by
  obtain ⟨hA, hB, hpend, hcount⟩ := h
  rcases s with ⟨st, pcA, pcB, pubs⟩
  cases isA
  · cases pcB <;> by_cases hst : st = .pending <;>
      simp_all [stepInvAtomic, stepPcAtomic, atomicInv] <;> omega
  · cases pcA <;> by_cases hst : st = .pending <;>
      simp_all [stepInvAtomic, stepPcAtomic, atomicInv] <;> omega

lemma runSchedAtomic_preserves (sched : List Bool) (s : ConcState)
    (h : atomicInv s) : atomicInv (runSchedAtomic sched s) := by
  induction sched generalizing s with
  | nil => exact h
  | cons b l ih =>
    exact ih (stepInvAtomic s b) (stepInvAtomic_preserves s b h)

/-- Under the spec's atomic conditional claim, no schedule of the two
invocations produces more than one publish call — the discipline
`processUpload` lacks restores the claimed property. -/
theorem atomic_claim_publishes_at_most_once (sched : List Bool) :
    (runSchedAtomic sched concInit).pubCount ≤ 1 := by
  have h := runSchedAtomic_preserves sched concInit
    (by simp [atomicInv, concInit])
  obtain ⟨-, -, -, hcount⟩ := h
  omega

/-- Guard behaviour of `processUpload` (upload-processor.service.ts lines
35-38): a record read back in status `processing` makes the call return
immediately, with no write, no publish and no cleanup, whatever the
collaborators would have answered. -/
lemma processUpload_processing_noop (env : PipelineEnv)
    (db : List UploadRecord) (uploadId : String) (u : UploadRecord)
    (hfind : getYouTubeUpload db uploadId = some u)
    (hst : u.status = .processing) :
    processUpload env db uploadId = ⟨db, [], [], .noop, []⟩ := by
  unfold processUpload
  rw [hfind]
  simp [hst]

/-- Database holding exactly the one stale `processing` record. -/
def stuckDb : List UploadRecord := [recStuck]

lemma processUpload_stuck_noop (env : PipelineEnv) :
    processUpload env stuckDb recStuck.id = ⟨stuckDb, [], [], .noop, []⟩ :=
  processUpload_processing_noop env stuckDb recStuck.id recStuck rfl rfl

lemma batch_stuckDb (now : Nat) :
    getPendingUploads stuckDb now =
      if 0 < now - tenMinutesMs then [recStuck] else [] := by
  unfold getPendingUploads
  by_cases h : 0 < now - tenMinutesMs
  · rw [if_pos h]
    have hd : (decide (recStuck.status = UploadStatus.processing ∧
        recStuck.updated_at < now - tenMinutesMs)) = true := by
      rw [decide_eq_true_eq]
      exact ⟨rfl, h⟩
    have hf : stuckDb.filter (fun r => decide (r.status = UploadStatus.processing ∧
        r.updated_at < now - tenMinutesMs)) = [recStuck] := by
      show List.filter _ [recStuck] = [recStuck]
      rw [List.filter_cons, if_pos hd]
      rfl
    simp only [hf]
    rfl
  · rw [if_neg h]
    have hd : (decide (recStuck.status = UploadStatus.processing ∧
        recStuck.updated_at < now - tenMinutesMs)) = false := by
      rw [decide_eq_false_iff_not]
      rintro ⟨-, hlt⟩
      exact h hlt
    have hf : stuckDb.filter (fun r => decide (r.status = UploadStatus.processing ∧
        r.updated_at < now - tenMinutesMs)) = [] := by
      show List.filter _ [recStuck] = []
      rw [List.filter_cons, if_neg (by simp [hd])]
      rfl
    simp only [hf]
    rfl

lemma sweep_stuckDb (env : PipelineEnv) :
    processPendingUploads env stuckDb = (stuckDb, 0) := by
  unfold processPendingUploads
  rw [batch_stuckDb env.now]
  by_cases h : 0 < env.now - tenMinutesMs
  · rw [if_pos h]
    simp only [List.foldl_cons, List.foldl_nil]
    rw [show recStuck.id = "s1" from rfl]
    rw [show processUpload env stuckDb "s1" = ⟨stuckDb, [], [], .noop, []⟩ from
      processUpload_stuck_noop env]
    rfl
  · rw [if_neg h]
    rfl

/-- C2: the claim states that a `processing` record older than the
staleness window is re-entered by the sweep and actually re-processed.
The sweep's query does select it, but `processUpload`'s guard (line 35)
returns immediately for any record whose status is `processing`, so the
invocation is a no-op: the sweep performs no write and no publish call,
and arbitrarily many sweep passes leave the record in `processing`
forever. -/
theorem C2_stale_processing_sweep_noop :
    recStuck ∈ getPendingUploads stuckDb tNow ∧
    (∀ env : PipelineEnv,
      processUpload env stuckDb recStuck.id = ⟨stuckDb, [], [], .noop, []⟩) ∧
    (∀ env : PipelineEnv, processPendingUploads env stuckDb = (stuckDb, 0)) ∧
    (∀ (env : PipelineEnv) (n : Nat), sweepIter env n stuckDb = stuckDb) := by
  refine ⟨by decide, processUpload_stuck_noop, sweep_stuckDb, ?_⟩
  intro env n
  induction n with
  | zero => rfl
  | succ n ih =>
    unfold sweepIter
    rw [sweep_stuckDb env]
    exact ih

/-- C3: the claim states that the audio-source step uses the CDN URL when
present, falls back to a signed URL via the storage key, and errors only
when neither exists.  In the code the signed-URL conditional's `else` arm
throws `File has no CDN URL or S3 key` (upload-processor.service.ts line
184) — and that arm is reached precisely when `audioUrl` was already set
from a truthy `cdn_url`, so every file row carrying a CDN URL makes the
resolution throw instead of using it. -/
theorem C3_cdn_url_resolution_throws (fileData : FileRow)
    (storageApiUrl : Option String) (signedUrl : Except String (Option String))
    (h : truthyS fileData.cdn_url = true) :
    resolveAudioUrl fileData storageApiUrl signedUrl =
      .error "File has no CDN URL or S3 key" := by
  rcases hc : fileData.cdn_url with - | s
  · rw [hc] at h
    simp [truthyS] at h
  · rw [hc] at h
    unfold resolveAudioUrl
    rw [hc]
    simp [h]

/-- Witness for `C3_cdn_url_resolution_throws` at a concrete file row
that has both a CDN URL and a storage key, with a working storage API. -/
theorem C3_cdn_url_resolution_throws_witness :
    truthyS (some "https://cdn.example.com/a.mp3") = true ∧
    resolveAudioUrl
        { cdn_url := some "https://cdn.example.com/a.mp3"
          s3_key := some "audio/key.mp3", user_id := "user1" }
        (some "https://storage.example")
        (.ok (some "https://signed.example/a.mp3")) =
      .error "File has no CDN URL or S3 key" :=
  ⟨by decide,
    C3_cdn_url_resolution_throws
      { cdn_url := some "https://cdn.example.com/a.mp3"
        s3_key := some "audio/key.mp3", user_id := "user1" }
      (some "https://storage.example")
      (.ok (some "https://signed.example/a.mp3")) (by decide)⟩

/-- C4: the claim states that the publish call receives the record's
stored visibility and, for a scheduled record, the future timestamp
verbatim as `publishAt`.  The processor instead hard-codes
`privacyStatus: 'private'` and passes no `publishAt` at all
(upload-processor.service.ts lines 221-227), so every metadata object
handed to `uploadVideo` — and hence the status body sent to the remote
API — carries `publishAt = none` and visibility `private`, regardless of
the record's `privacy_status` and `scheduled_at`. -/
theorem C4_publish_call_omits_schedule (env : PipelineEnv)
    (db : List UploadRecord) (uploadId : String) (o : YouTubeUploadOptions)
    (hmem : o ∈ (processUpload env db uploadId).publishes) :
    o.publishAt = none ∧ o.privacyStatus = some .priv ∧
    (buildStatusBody o).publishAt = none ∧
    (buildStatusBody o).privacyStatus = .priv := by
  have hshape : ∀ u : UploadRecord, o = publishOptions u →
      o.publishAt = none ∧ o.privacyStatus = some .priv ∧
      (buildStatusBody o).publishAt = none ∧
      (buildStatusBody o).privacyStatus = .priv := by
    rintro u rfl
    exact ⟨rfl, rfl, rfl, rfl⟩
  unfold processUpload at hmem
  rcases hfind : getYouTubeUpload db uploadId with - | u <;> rw [hfind] at hmem
  · simp at hmem
  · by_cases hg : u.status = .uploaded ∨ u.status = .processing
    · simp [hg] at hmem
    · simp only [hg, if_false] at hmem
      have hmem' : o ∈ (runTry env u).publishes := by
        rcases hres : (runTry env u).result with m | v <;>
          simp [hres] at hmem <;> exact hmem
      rcases runTry_publishes env u with hp | hp
      · rw [hp] at hmem'
        simp at hmem'
      · rw [hp] at hmem'
        exact hshape u (by simpa using hmem')

/-- Witness for `C4_publish_call_omits_schedule`: a successful run on a
record scheduled for the future whose stored visibility is `public`
still publishes with `private` visibility and no `publishAt`. -/
theorem C4_publish_call_omits_schedule_witness :
    (publishOptions recFuture ∈
      (processUpload envOk [recFuture] "p1").publishes) ∧
    (publishOptions recFuture).publishAt = none ∧
    (publishOptions recFuture).privacyStatus = some .priv ∧
    (buildStatusBody (publishOptions recFuture)).publishAt = none ∧
    (buildStatusBody (publishOptions recFuture)).privacyStatus = .priv :=
  ⟨by decide,
    C4_publish_call_omits_schedule envOk [recFuture] "p1"
      (publishOptions recFuture) (by decide)⟩

/-- C7: the claim states that the usable-credential check returns true
whenever a refresh token exists, even if the access token is expired.
`hasValidTokens` (oauth.service.ts lines 131-156) never reads the refresh
token: any present, non-zero expiry in the past makes it return false. -/
theorem C7_refresh_token_ignored (row : Option ProfileRow) (now : Nat)
    (t : OAuthTokens) (e : Nat)
    (hget : getUserTokens row = some t)
    (hrefresh : t.refresh_token.isSome = true)
    (hexp : t.expires_at = some e) (hz : e ≠ 0) (hlt : e < now) :
    hasValidTokens row now = false := by
  have hstep : hasValidTokens row now =
      (match t.expires_at with
        | some e => if e ≠ 0 ∧ e < now then false else true
        | none => true) := by
    unfold hasValidTokens
    rw [hget]
  rw [hstep, hexp]
  simp [hz, hlt]

/-- Witness for `C7_refresh_token_ignored`: a profile row with a live
refresh token and an access token that expired one second ago is reported
unusable. -/
theorem C7_refresh_token_ignored_witness :
    getUserTokens (some ⟨some "at", some "rt", some 1000⟩) =
      some { access_token := "at", refresh_token := some "rt", expires_at := some 1000 } ∧
    hasValidTokens (some ⟨some "at", some "rt", some 1000⟩) 2000 = false :=
  ⟨by decide,
    C7_refresh_token_ignored (some ⟨some "at", some "rt", some 1000⟩) 2000
      { access_token := "at", refresh_token := some "rt", expires_at := some 1000 }
      1000 (by decide) (by decide) (by decide) (by decide) (by decide)⟩

/-- C8: the claim states the composer enforces a wall-clock timeout on
the muxing invocation, force-terminates the process and surfaces a
distinct timeout error.  In `createVideoFromAudio`
(video-processing.service.ts lines 30-135) the returned promise settles
only through the `end` and `error` handlers; no timer or kill is ever
armed, so when both downloads succeed and the FFmpeg process emits
neither event the compose call blocks indefinitely. -/
theorem C8_mux_hang_never_settles (env : ComposeEnv)
    (thumbnailUrl : Option String) (videoPath : String)
    (ha : env.audioDl = .ok ()) (hm : env.mux = .silent) :
    createVideoFromAudio env thumbnailUrl videoPath = .neverSettles := by
  unfold createVideoFromAudio
  rw [ha, hm]

/-- Witness for `C8_mux_hang_never_settles` at a concrete environment
with successful downloads and a silent FFmpeg run. -/
theorem C8_mux_hang_never_settles_witness :
    createVideoFromAudio ⟨.ok "/tmp/t.jpg", .ok (), .silent⟩
        (some "https://thumb.example/t.jpg") "/tmp/v.mp4" = .neverSettles :=
  C8_mux_hang_never_settles ⟨.ok "/tmp/t.jpg", .ok (), .silent⟩
    (some "https://thumb.example/t.jpg") "/tmp/v.mp4" rfl rfl

/-- Contrast for C8: the sibling revision of the composer kept in the
repository (src/unnamed/part_008) arms a 30-minute timer that kills the
process, so the same silent run settles with the distinct timeout
error. -/
theorem railway_composer_times_out (env : ComposeEnv)
    (thumbnailUrl : Option String) (videoPath : String)
    (ha : env.audioDl = .ok ()) (hm : env.mux = .silent) :
    createVideoFromAudioRailway env thumbnailUrl videoPath =
      .failed "FFmpeg process timeout after 30 minutes" := by
  unfold createVideoFromAudioRailway
  rw [ha, hm]

/-- Closed instance of `railway_composer_times_out`. -/
theorem railway_composer_times_out_witness :
    createVideoFromAudioRailway ⟨.ok "/tmp/t.jpg", .ok (), .silent⟩
        (some "https://thumb.example/t.jpg") "/tmp/v.mp4" =
      .failed "FFmpeg process timeout after 30 minutes" :=
  railway_composer_times_out ⟨.ok "/tmp/t.jpg", .ok (), .silent⟩
    (some "https://thumb.example/t.jpg") "/tmp/v.mp4" rfl rfl

/-- Reduction of `processUpload` on a found, unguarded record whose
`try` block succeeds. -/
lemma processUpload_ok_eq (env : PipelineEnv) (db : List UploadRecord)
    (uploadId : String) (u : UploadRecord) (videoId : String)
    (hfind : getYouTubeUpload db uploadId = some u)
    (hg : ¬(u.status = .uploaded ∨ u.status = .processing))
    (hres : (runTry env u).result = .ok videoId) :
    processUpload env db uploadId =
      ⟨dbUpdate (dbUpdate db uploadId ⟨some .processing, none, none⟩ env.now)
          uploadId ⟨some .uploaded, some videoId, none⟩ env.now,
        [.processing, .uploaded], (runTry env u).publishes, .okDone,
        (runTry env u).videoPath.toList⟩ := by
  unfold processUpload
  rw [hfind]
  simp only [hg, if_false, hres]

/-- Reduction of `processUpload` on a found, unguarded record whose
`try` block throws. -/
lemma processUpload_err_eq (env : PipelineEnv) (db : List UploadRecord)
    (uploadId : String) (u : UploadRecord) (m : String)
    (hfind : getYouTubeUpload db uploadId = some u)
    (hg : ¬(u.status = .uploaded ∨ u.status = .processing))
    (hres : (runTry env u).result = .error m) :
    processUpload env db uploadId =
      ⟨dbUpdate (dbUpdate db uploadId ⟨some .processing, none, none⟩ env.now)
          uploadId
          ⟨some .failed, none,
            some (if m = "" then "Unknown error occurred" else m)⟩ env.now,
        [.processing, .failed], (runTry env u).publishes, .thrown m,
        (runTry env u).videoPath.toList⟩ := by
  unfold processUpload
  rw [hfind]
  simp only [hg, if_false, hres]

/-- C5: terminal postcondition of the transition function.  When the
record exists and is not screened out by the guard: if the `try` block
(steps 4-7: credentials, source resolution, composition, publish)
succeeds, the record is written `processing` then `uploaded` with the
returned video id and the call returns normally; if any of those steps
throws with message `m`, the record is written `processing` then `failed`
with `error.message || 'Unknown error occurred'` and the error is
re-raised to the caller. -/
theorem C5_terminal_postcondition :
    (∀ (env : PipelineEnv) (db : List UploadRecord) (uploadId : String)
        (u : UploadRecord) (videoId : String),
      getYouTubeUpload db uploadId = some u →
      ¬(u.status = .uploaded ∨ u.status = .processing) →
      (runTry env u).result = .ok videoId →
      (processUpload env db uploadId).outcome = .okDone ∧
      (processUpload env db uploadId).statusWrites = [.processing, .uploaded] ∧
      ∃ u₁, getYouTubeUpload (processUpload env db uploadId).db uploadId = some u₁ ∧
        u₁.status = .uploaded ∧ u₁.youtube_video_id = some videoId) ∧
    (∀ (env : PipelineEnv) (db : List UploadRecord) (uploadId : String)
        (u : UploadRecord) (m : String),
      getYouTubeUpload db uploadId = some u →
      ¬(u.status = .uploaded ∨ u.status = .processing) →
      (runTry env u).result = .error m →
      (processUpload env db uploadId).outcome = .thrown m ∧
      (processUpload env db uploadId).statusWrites = [.processing, .failed] ∧
      ∃ u₁, getYouTubeUpload (processUpload env db uploadId).db uploadId = some u₁ ∧
        u₁.status = .failed ∧
        u₁.error_message = some (if m = "" then "Unknown error occurred" else m)) := by
  constructor
  · intro env db uploadId u videoId hfind hg hres
    rw [processUpload_ok_eq env db uploadId u videoId hfind hg hres]
    refine ⟨rfl, rfl, ?_⟩
    rw [getYouTubeUpload_dbUpdate, getYouTubeUpload_dbUpdate, hfind]
    exact ⟨_, rfl, rfl, rfl⟩
  · intro env db uploadId u m hfind hg hres
    rw [processUpload_err_eq env db uploadId u m hfind hg hres]
    refine ⟨rfl, rfl, ?_⟩
    rw [getYouTubeUpload_dbUpdate, getYouTubeUpload_dbUpdate, hfind]
    exact ⟨_, rfl, rfl, rfl⟩

/-- Witness for `C5_terminal_postcondition`: a concrete `pending` record
driven once through an all-successful environment ends `uploaded` with
the returned id, and once through an environment whose composer throws
ends `failed` carrying the wrapped message, which is also re-raised. -/
theorem C5_terminal_postcondition_witness :
    ((processUpload envOk [recPending] "u1").outcome = .okDone ∧
     (processUpload envOk [recPending] "u1").statusWrites =
       [.processing, .uploaded] ∧
     ∃ u₁, getYouTubeUpload (processUpload envOk [recPending] "u1").db "u1" =
         some u₁ ∧
       u₁.status = .uploaded ∧ u₁.youtube_video_id = some "vid123") ∧
    ((processUpload envComposeFail [recPending] "u1").outcome =
       .thrown "Video creation failed: boom" ∧
     (processUpload envComposeFail [recPending] "u1").statusWrites =
       [.processing, .failed] ∧
     ∃ u₁, getYouTubeUpload
         (processUpload envComposeFail [recPending] "u1").db "u1" = some u₁ ∧
       u₁.status = .failed ∧
       u₁.error_message = some (if "Video creation failed: boom" = ""
         then "Unknown error occurred" else "Video creation failed: boom")) :=
  ⟨C5_terminal_postcondition.1 envOk [recPending] "u1" recPending "vid123"
      rfl (by decide) rfl,
   C5_terminal_postcondition.2 envComposeFail [recPending] "u1" recPending
      "Video creation failed: boom" rfl (by decide) rfl⟩

/-- C10: the guard of `processUpload` (line 35) tests only `uploaded` and
`processing`, so a record in status `failed` is not screened out: the
call is never a no-op, its first write flips the record to `processing`,
and with succeeding collaborators it performs a fresh publish and ends
`uploaded` — all without any external reset to `pending`. -/
theorem C10_failed_record_reprocessed :
    (∀ (env : PipelineEnv) (db : List UploadRecord) (uploadId : String)
        (u : UploadRecord),
      getYouTubeUpload db uploadId = some u → u.status = .failed →
      (processUpload env db uploadId).outcome ≠ .noop ∧
      (processUpload env db uploadId).statusWrites.head? = some .processing) ∧
    (∀ (env : PipelineEnv) (db : List UploadRecord) (uploadId : String)
        (u : UploadRecord) (videoId : String),
      getYouTubeUpload db uploadId = some u → u.status = .failed →
      (runTry env u).result = .ok videoId →
      (processUpload env db uploadId).publishes = [publishOptions u] ∧
      ∃ u₁, getYouTubeUpload (processUpload env db uploadId).db uploadId = some u₁ ∧
        u₁.status = .uploaded ∧ u₁.youtube_video_id = some videoId) := by
  have hguard : ∀ u : UploadRecord, u.status = .failed →
      ¬(u.status = .uploaded ∨ u.status = .processing) := by
    intro u hst
    rw [hst]
    rintro (h | h) <;> exact UploadStatus.noConfusion h
  constructor
  · intro env db uploadId u hfind hst
    rcases hres : (runTry env u).result with m | videoId
    · rw [processUpload_err_eq env db uploadId u m hfind (hguard u hst) hres]
      exact ⟨fun h => Outcome.noConfusion h, rfl⟩
    · rw [processUpload_ok_eq env db uploadId u videoId hfind (hguard u hst) hres]
      exact ⟨fun h => Outcome.noConfusion h, rfl⟩
  · intro env db uploadId u videoId hfind hst hres
    rw [processUpload_ok_eq env db uploadId u videoId hfind (hguard u hst) hres]
    refine ⟨runTry_ok_publishes env u videoId hres, ?_⟩
    rw [getYouTubeUpload_dbUpdate, getYouTubeUpload_dbUpdate, hfind]
    exact ⟨_, rfl, rfl, rfl⟩

/-- Witness for `C10_failed_record_reprocessed`: the concrete `failed`
record, processed directly with succeeding collaborators, is not skipped:
it is flipped to `processing`, published once, and ends `uploaded`. -/
theorem C10_failed_record_reprocessed_witness :
    ((processUpload envOk [recFailed] "x1").outcome ≠ .noop ∧
     (processUpload envOk [recFailed] "x1").statusWrites.head? =
       some .processing) ∧
    ((processUpload envOk [recFailed] "x1").publishes =
       [publishOptions recFailed] ∧
     ∃ u₁, getYouTubeUpload (processUpload envOk [recFailed] "x1").db "x1" =
         some u₁ ∧
       u₁.status = .uploaded ∧ u₁.youtube_video_id = some "vid123") :=
  ⟨C10_failed_record_reprocessed.1 envOk [recFailed] "x1" recFailed rfl rfl,
   C10_failed_record_reprocessed.2 envOk [recFailed] "x1" recFailed "vid123"
     rfl rfl rfl⟩

/-- C9: every metadata object sent to `videos.insert` is clipped to the
documented platform limits before transmission — the title to its first
100 characters, the description to 5000, the tag list to 500 entries —
and the clipping is total: `buildSnippet` is defined for every input, so
an over-limit title is truncated rather than rejected. -/
theorem C9_metadata_truncated_before_transmission (o : YouTubeUploadOptions) :
    (buildSnippet o).title = o.title.take 100 ∧
    (buildSnippet o).title.length ≤ 100 ∧
    (buildSnippet o).description.length ≤ 5000 ∧
    (buildSnippet o).tags.length ≤ 500 := by
  refine ⟨rfl, ?_, ?_, ?_⟩
  · exact List.length_take_le 100 o.title
  · exact List.length_take_le 5000 _
  · exact List.length_take_le 500 _

/-- Counterexample to C6 as stated: the claim says the sweep's candidate
set contains only `pending` records whose scheduled timestamp is null or
already past, but `getPendingUploads` applies no `scheduled_at` condition
(supabase.service.ts lines 383-400), so a `pending` record scheduled far
in the future is selected. -/
theorem C6_future_scheduled_pending_included :
    getPendingUploads [recFuture] 1000000 = [recFuture] ∧
    recFuture.status = .pending ∧
    recFuture.scheduled_at = some 9999999999 ∧
    1000000 < 9999999999 := by
  decide

/-- C6 (amended): the sweep's candidate set consists of `pending` records
regardless of their scheduled timestamp (first 20 by creation time) plus
`processing` records whose `updated_at` is older than the 10-minute
staleness window (first 5 by update time), deduplicated by id and capped
at 10 — so a fresh `processing` record is excluded; and whenever the
per-query caps are not binding, every `pending` record and every stale
`processing` record of the store is selected. -/
theorem C6_candidate_set_amended :
    (∀ (db : List UploadRecord) (now : Nat) (r : UploadRecord),
      r ∈ getPendingUploads db now →
      r.status = .pending ∨
        (r.status = .processing ∧ r.updated_at < now - tenMinutesMs)) ∧
    (∀ (db : List UploadRecord) (now : Nat),
      (getPendingUploads db now).length ≤ 10) ∧
    (∀ (db : List UploadRecord) (now : Nat) (r : UploadRecord),
      (db.map (·.id)).Nodup →
      (db.filter fun s => s.status = .processing ∧
        s.updated_at < now - tenMinutesMs).length ≤ 5 →
      (db.filter fun s => s.status = .pending).length +
        (db.filter fun s => s.status = .processing ∧
          s.updated_at < now - tenMinutesMs).length ≤ 10 →
      r ∈ db →
      (r.status = .pending ∨
        (r.status = .processing ∧ r.updated_at < now - tenMinutesMs)) →
      r ∈ getPendingUploads db now) := by
  refine ⟨?_, ?_, ?_⟩
  · intro db now r h
    unfold getPendingUploads at h
    have h1 := List.mem_of_mem_take h
    have h2 := mem_of_mem_dedupById _ _ h1
    rcases List.mem_append.1 h2 with h3 | h3
    · left
      have h4 := List.mem_of_mem_take h3
      have h5 := (mem_orderBy _ _ _).1 h4
      have h6 := List.of_mem_filter h5
      simpa using h6
    · right
      have h4 := List.mem_of_mem_take h3
      have h5 := (mem_orderBy _ _ _).1 h4
      have h6 := List.of_mem_filter h5
      simpa using h6
  · intro db now
    unfold getPendingUploads
    exact List.length_take_le 10 _
  · intro db now r hnd h5 h10 hmem hpred
    have hinj : ∀ x ∈ db, ∀ y ∈ db, x.id = y.id → x = y :=
      List.inj_on_of_nodup_map hnd
    set P := db.filter (fun s => decide (s.status = UploadStatus.pending)) with hP
    set S := db.filter (fun s => decide (s.status = UploadStatus.processing ∧
      s.updated_at < now - tenMinutesMs)) with hS
    have hlp : P.length ≤ 10 := by omega
    have hop : (orderBy (fun r s => r.created_at ≤ s.created_at) P).length =
        P.length := length_orderBy _ _
    have hos : (orderBy (fun r s => r.updated_at ≤ s.updated_at) S).length =
        S.length := length_orderBy _ _
    have htp : (orderBy (fun r s => r.created_at ≤ s.created_at) P).take 20 =
        orderBy (fun r s => r.created_at ≤ s.created_at) P := by
      apply List.take_of_length_le
      omega
    have hts : (orderBy (fun r s => r.updated_at ≤ s.updated_at) S).take 5 =
        orderBy (fun r s => r.updated_at ≤ s.updated_at) S := by
      apply List.take_of_length_le
      omega
    have hPnd : (P.map (·.id)).Nodup :=
      List.Nodup.sublist (List.Sublist.map _ (List.filter_sublist db)) hnd
    have hSnd : (S.map (·.id)).Nodup :=
      List.Nodup.sublist (List.Sublist.map _ (List.filter_sublist db)) hnd
    have hdisj : ∀ x, x ∈ P.map (·.id) → x ∉ S.map (·.id) := by
      intro x hxP hxS
      rcases List.mem_map.1 hxP with ⟨p, hp, hpx⟩
      rcases List.mem_map.1 hxS with ⟨q, hq, hqx⟩
      have hpdb : p ∈ db := (List.filter_sublist db).mem hp
      have hqdb : q ∈ db := (List.filter_sublist db).mem hq
      have hpq : p = q := hinj p hpdb q hqdb (by rw [hpx, hqx])
      have hps := List.of_mem_filter hp
      have hqs := List.of_mem_filter hq
      rw [hpq] at hps
      simp at hps hqs
      rw [hps] at hqs
      exact UploadStatus.noConfusion hqs.1
    have hallnd : (((orderBy (fun r s => r.created_at ≤ s.created_at) P) ++
        (orderBy (fun r s => r.updated_at ≤ s.updated_at) S)).map (·.id)).Nodup := by
      rw [List.map_append]
      rw [List.nodup_append]
      refine ⟨nodup_map_orderBy _ _ _ hPnd, nodup_map_orderBy _ _ _ hSnd, ?_⟩
      intro x hx hy
      have hx' : x ∈ P.map (·.id) := by
        rcases List.mem_map.1 hx with ⟨p, hp, hpx⟩
        exact List.mem_map.2 ⟨p, (mem_orderBy _ _ _).1 hp, hpx⟩
      have hy' : x ∈ S.map (·.id) := by
        rcases List.mem_map.1 hy with ⟨q, hq, hqx⟩
        exact List.mem_map.2 ⟨q, (mem_orderBy _ _ _).1 hq, hqx⟩
      exact hdisj x hx' hy'
    have hdedup := dedupById_of_nodup _ hallnd
    have hlen : ((orderBy (fun r s => r.created_at ≤ s.created_at) P) ++
        (orderBy (fun r s => r.updated_at ≤ s.updated_at) S)).length ≤ 10 := by
      rw [List.length_append, hop, hos]
      omega
    unfold getPendingUploads
    dsimp only
    rw [← hP, ← hS]
    rw [htp, hts, hdedup, List.take_of_length_le hlen]
    rcases hpred with hpend | hstale
    · refine List.mem_append.2 (Or.inl ?_)
      refine (mem_orderBy _ _ _).2 ?_
      rw [hP]
      exact List.mem_filter.2 ⟨hmem, by simpa using hpend⟩
    · refine List.mem_append.2 (Or.inr ?_)
      refine (mem_orderBy _ _ _).2 ?_
      rw [hS]
      exact List.mem_filter.2 ⟨hmem, by simpa using hstale⟩

/-- Witness for `C6_candidate_set_amended`: in a store holding the
future-scheduled `pending` record and the stale `processing` record, both
with distinct ids and counts below every cap, the future-scheduled record
is selected by the sweep. -/
theorem C6_candidate_set_amended_witness :
    (([recFuture, recStuck].map (·.id)).Nodup ∧
      ([recFuture, recStuck].filter fun s => s.status = .processing ∧
        s.updated_at < tNow - tenMinutesMs).length ≤ 5 ∧
      ([recFuture, recStuck].filter fun s => s.status = .pending).length +
        ([recFuture, recStuck].filter fun s => s.status = .processing ∧
          s.updated_at < tNow - tenMinutesMs).length ≤ 10) ∧
    recFuture ∈ getPendingUploads [recFuture, recStuck] tNow :=
  ⟨⟨by decide, by decide, by decide⟩,
    C6_candidate_set_amended.2.2 [recFuture, recStuck] tNow recFuture
      (by decide) (by decide) (by decide) (by decide) (by decide)⟩

/-- Concrete illustration of the truncation on a 150-character title:
the snippet carries exactly the first 100 characters. -/
theorem metadata_truncation_concrete :
    (buildSnippet
      { title := List.replicate 150 'a', description := none, tags := none
        thumbnailUrl := none, privacyStatus := some .pub, categoryId := none
        publishAt := none }).title = List.replicate 100 'a' ∧
    (buildSnippet
      { title := List.replicate 150 'a', description := none, tags := none
        thumbnailUrl := none, privacyStatus := some .pub, categoryId := none
        publishAt := none }).title.length = 100 := by
  decide

